import Mathlib

/-!
Verification of the OpenAlex search client (`openalex_search.py`).

The Python source is shallowly embedded.  Python strings are sequences of
characters, so the string algorithms (`str.split`, `str.strip`, `str.upper`,
substring containment, slicing) are modelled on `List Char`, converting to
`String` at the boundaries; each helper mirrors the documented CPython
behaviour of the operation it names.  `requests` is modelled as an oracle
`Request → HttpResult`; `datetime.now()` is passed in as a string parameter
`now`; pandas cells are `Option String` with `none` standing for `NaN`/`None`.
-/

/-- Python `str.split(sep)` for a one-character separator: split on every
occurrence, keeping empty pieces (`"a,,b".split(",") == ["a","","b"]`,
`"".split(",") == [""]`). -/
def splitChars (sep : Char) : List Char → List (List Char)
  | [] => [[]]
  | c :: rest =>
    match splitChars sep rest with
    | [] => [[]]
    | h :: t => if c = sep then [] :: h :: t else (c :: h) :: t

/-- Python `str.strip()`: remove leading and trailing whitespace. -/
def stripChars (l : List Char) : List Char :=
  ((l.dropWhile Char.isWhitespace).reverse.dropWhile Char.isWhitespace).reverse

/-- Substring containment, Python's `needle in hay`. -/
def infixOfChars (needle : List Char) (hay : List Char) : Bool :=
  match hay with
  | [] => needle.isEmpty
  | _ :: rest => needle.isPrefixOf hay || infixOfChars needle rest

/-- Python `term.startswith('"') and term.endswith('"')` (note that the
one-character string `"` satisfies both, exactly as in Python). -/
def isQuotedTerm (t : List Char) : Bool :=
  (t.head? = some '"' : Bool) && (t.getLast? = some '"' : Bool)

/-- Wrap a term in double quotes. -/
def quoteTerm (t : List Char) : List Char := '"' :: (t ++ ['"'])

/-- The guard of `_format_query_for_openalex`:
`',' in query and 'OR' not in query.upper() and 'AND' not in query.upper()`. -/
def comma_condition (query : String) : Bool :=
  query.data.contains ',' &&
    !(infixOfChars "OR".data (query.data.map Char.toUpper)) &&
    !(infixOfChars "AND".data (query.data.map Char.toUpper))

/-- Body of the `for term in terms` loop of `_format_query_for_openalex`:
re-strip the term, then append it (quoted when it is an unquoted term
containing a space) to the accumulator; empty terms are skipped. -/
def format_term_step (acc : List (List Char)) (t : List Char) : List (List Char) :=
  let t := stripChars t
  if !t.isEmpty && !isQuotedTerm t then
    if t.contains ' ' then acc ++ [quoteTerm t] else acc ++ [t]
  else if !t.isEmpty then acc ++ [t]
  else acc

/-- `OpenAlexSearcher._format_query_for_openalex`: when the query contains a
comma and its uppercasing contains neither `"OR"` nor `"AND"` as a substring,
split on commas, strip, drop empties, quote multi-word unquoted terms and join
with `" OR "`; otherwise return the query unchanged. -/
def _format_query_for_openalex (query : String) : String :=
  if comma_condition query then
    let terms := ((splitChars ',' query.data).map stripChars).filter (fun t => !t.isEmpty)
    let formatted_terms := terms.foldl format_term_step []
    ⟨List.intercalate " OR ".data formatted_terms⟩
  else
    query

/-- The claim's per-term rule: "wraps each term that is not already a quoted
phrase and contains an internal space in double quotes". -/
def claim_wrap_term (t : List Char) : List Char :=
  if !isQuotedTerm t && t.contains ' ' then quoteTerm t else t

/-- The claim's full pipeline on the comma branch: split on commas, trim,
drop empty terms, wrap, join with `" OR "`. -/
def claim_comma_join (query : String) : String :=
  ⟨List.intercalate " OR ".data
    (((((splitChars ',' query.data).map stripChars).filter
        (fun t => !t.isEmpty))).map claim_wrap_term)⟩

/-- The claim's notion of containing `AND` or `OR` "as a whole token
(case-insensitive)": some whitespace-separated token uppercases to exactly
`AND` or `OR`. -/
def has_boolean_token (query : String) : Bool :=
  ((splitChars ' ' query.data).map (fun t => t.map Char.toUpper)).any
    (fun t => t = "AND".data || t = "OR".data)

/-- One pair per occurrence of a word at each of its listed positions,
in dictionary insertion order: the `word_positions` list built by
`_convert_inverted_abstract`. -/
def flatten_pairs (inverted_index : List (String × List Int)) : List (Int × String) :=
  (inverted_index.map (fun wp => wp.2.map (fun pos => (pos, wp.1)))).flatten

/-- Stable insertion of a pair into a list, comparing only the positions
(first components); an incoming element goes before later-inserted elements
with an equal key, never before an earlier one. -/
def insertPair (x : Int × String) : List (Int × String) → List (Int × String)
  | [] => [x]
  | y :: ys => if x.1 ≤ y.1 then x :: y :: ys else y :: insertPair x ys

/-- Python `list.sort(key=lambda x: x[0])`: a stable sort ascending by the
first component, modelled as stable insertion sort (stability, sortedness and
permutation are proved below, which pins down the same function). -/
def sort_pairs : List (Int × String) → List (Int × String)
  | [] => []
  | x :: xs => insertPair x (sort_pairs xs)

/-- The `' '.join(...)` of the sorted words, as a character list. -/
def joined_abstract (inverted_index : List (String × List Int)) : List Char :=
  List.intercalate [' ']
    ((sort_pairs (flatten_pairs inverted_index)).map (fun p => p.2.data))

/-- `OpenAlexSearcher._convert_inverted_abstract`: rebuild the abstract from
the inverted index; empty mapping gives `""`; a result longer than 500
characters is cut to its first 500 characters plus `"..."`. -/
def _convert_inverted_abstract (inverted_index : List (String × List Int)) : String :=
  if inverted_index.isEmpty then ""
  else
    let abstract := joined_abstract inverted_index
    if abstract.length > 500 then ⟨abstract.take 500⟩ ++ "..." else ⟨abstract⟩

/-- Nested `source` object of a raw work's primary location. -/
structure SourceInfo where
  display_name : Option String := none
deriving DecidableEq

/-- Raw work's `primary_location` object. -/
structure PrimaryLocation where
  /-- `none` = key absent, `some none` = key present but `null`. -/
  source : Option (Option SourceInfo) := none
deriving DecidableEq

/-- Nested `author` object of an authorship entry. -/
structure AuthorInfo where
  display_name : Option String := none
deriving DecidableEq

/-- One entry of a raw work's `authorships` list. -/
structure Authorship where
  author : Option AuthorInfo := none
deriving DecidableEq

/-- Raw work's `open_access` object. -/
structure OpenAccessInfo where
  is_oa : Option Bool := none
deriving DecidableEq

/-- A raw Work as returned by the OpenAlex API (only the fields named in the
`select` projection).  An `Option` field is `none` when the JSON key is
absent; for `primary_location` and `doi` a second `Option` layer
distinguishes a present-but-`null` value (`some none`), which the code
handles differently from an absent key. -/
structure RawWork where
  id : Option String := none
  display_name : Option String := none
  publication_year : Option Int := none
  primary_location : Option (Option PrimaryLocation) := none
  authorships : Option (List Authorship) := none
  abstract_inverted_index : Option (List (String × List Int)) := none
  cited_by_count : Option Nat := none
  doi : Option (Option String) := none
  open_access : Option OpenAccessInfo := none
deriving DecidableEq

/-- A JSON page response.  `error` is `some` when the dict has an `'error'`
key (only our own failure handler creates one); `results` is `none` when the
`'results'` key is absent. -/
structure RawPage where
  error : Option String := none
  results : Option (List RawWork) := none
  meta_count : Option Nat := none
deriving DecidableEq

/-- The flat record produced by `parse_results` for one work.  `doi` is
`Option String` because `work.get('doi', '')` yields the Python `None` when
the work carries a `null` DOI (and `''` when the key is absent). -/
structure ParsedRecord where
  title : String := ""
  author : String := ""
  publication : String := ""
  year : String := ""
  doi : Option String := some ""
  abstract : String := ""
  citations : String := "0"
  openalex_id : String := ""
  open_access : Bool := false
  search_query : String := ""
  search_date : String := ""
  source : String := "OpenAlex"
deriving DecidableEq

/-- The author-name extraction `auth.get('author', {}).get('display_name', '')`. -/
def authorship_name (a : Authorship) : String :=
  ((a.author.getD { display_name := none }).display_name).getD ""

/-- The `authors` list built by `parse_results` for one work: guarded by the
truthiness of `work.get('authorships')`, loop over the first three entries
appending each non-empty display name. -/
def work_authors (work : RawWork) : List String :=
  match work.authorships with
  | none => []
  | some l =>
    if !l.isEmpty then
      (l.take 3).foldl
        (fun acc auth =>
          let author_name := authorship_name auth
          if author_name ≠ "" then acc ++ [author_name] else acc)
        []
    else []

/-- Parse one raw work into a `ParsedRecord` (the body of the `for work in
search_results['results']` loop of `parse_results`); `now` is the
`search_date` timestamp taken at the top of `parse_results`. -/
def parse_work (work : RawWork) (query : String) (now : String) : ParsedRecord :=
  let authors := work_authors work
  -- `work.get('primary_location', {}) or {}`: an absent key or a `null`
  -- value both collapse to the empty dict
  let primary_location : PrimaryLocation :=
    match work.primary_location with
    | some (some pl) => pl
    | _ => { source := none }
  -- `primary_location.get('source', {}) or {}`
  let source_info : SourceInfo :=
    match primary_location.source with
    | some (some si) => si
    | _ => { display_name := none }
  let abstract_text := _convert_inverted_abstract (work.abstract_inverted_index.getD [])
  { title := work.display_name.getD ""
    author := if !authors.isEmpty then String.intercalate "; " authors else ""
    publication := source_info.display_name.getD ""
    year := match work.publication_year with
            | some y => toString y
            | none => ""
    doi := work.doi.getD (some "")
    abstract := abstract_text
    citations := toString (work.cited_by_count.getD 0)
    openalex_id := (work.id.getD "").replace "https://openalex.org/" ""
    open_access := ((work.open_access.getD { is_oa := none }).is_oa).getD false
    search_query := query
    search_date := now
    source := "OpenAlex" }

/-- `OpenAlexSearcher.parse_results`: empty list if the page carries an
`'error'` key or lacks a `'results'` key, otherwise one `ParsedRecord` per
raw work. -/
def parse_results (search_results : RawPage) (query : String) (now : String) :
    List ParsedRecord :=
  if search_results.error.isSome then []
  else
    match search_results.results with
    | none => []
    | some works => works.map (fun work => parse_work work query now)

/-- The parameter dict of one HTTP GET against the works endpoint.  A `none`
field is a parameter the fetcher does not pass. -/
structure Request where
  filter : Option String := none
  search : Option String := none
  per_page : Nat := 200
  page : Option Nat := none
  sort : Option String := none
  select : String := "id,display_name,publication_year,primary_location,authorships,abstract_inverted_index,cited_by_count,doi,open_access"
deriving DecidableEq

/-- A transport-level failure of `session.get(...)`: the
`requests.exceptions.RequestException` cases the code catches (timeout,
connection error, or the non-2xx status raised by `raise_for_status`). -/
inductive FailKind where
  | timeout : FailKind
  | connectionError : FailKind
  | httpStatus (code : Nat) : FailKind
deriving DecidableEq

/-- The `str(e)` text of a transport failure. -/
def failKindMessage : FailKind → String
  | .timeout => "timed out"
  | .connectionError => "connection error"
  | .httpStatus code => "HTTP status " ++ toString code

/-- Outcome of one `session.get`: a 2xx JSON body, or a raised
`RequestException`. -/
inductive HttpResult where
  | success (body : RawPage) : HttpResult
  | failure (kind : FailKind) : HttpResult

/-- The shared `try/except` of the three fetchers: return the JSON body on
success, and on any `RequestException` return
`{'error': f'Error en la solicitud: {e}'}` instead of raising. -/
def httpGet (server : Request → HttpResult) (req : Request) : RawPage :=
  match server req with
  | .success body => body
  | .failure kind =>
    { error := some ("Error en la solicitud: " ++ failKindMessage kind)
      results := none
      meta_count := none }

/-- Params built by `search_title_abstract`. -/
def title_abstract_request (query : String) (per_page : Nat) (page : Nat)
    (sort : String) : Request :=
  { filter := some ("title_and_abstract.search:" ++ _format_query_for_openalex query)
    search := none
    per_page := min per_page 200
    page := some page
    sort := some sort }

/-- Params built by `search_general` (note: no `sort` parameter in the code). -/
def general_request (query : String) (per_page : Nat) (page : Nat) : Request :=
  { search := some (_format_query_for_openalex query)
    per_page := min per_page 200
    page := some page }

/-- Params built by `search_title_only`: the function takes no page argument
and passes no `page` parameter. -/
def title_only_request (query : String) (per_page : Nat) : Request :=
  { filter := some ("title.search:" ++ _format_query_for_openalex query)
    per_page := min per_page 200 }

/-- `OpenAlexSearcher.search_title_abstract`. -/
def search_title_abstract (server : Request → HttpResult) (query : String)
    (per_page : Nat := 200) (page : Nat := 1)
    (sort : String := "relevance_score:desc") : RawPage :=
  httpGet server (title_abstract_request query per_page page sort)

/-- `OpenAlexSearcher.search_general`. -/
def search_general (server : Request → HttpResult) (query : String)
    (per_page : Nat := 200) (page : Nat := 1) : RawPage :=
  httpGet server (general_request query per_page page)

/-- `OpenAlexSearcher.search_title_only`. -/
def search_title_only (server : Request → HttpResult) (query : String)
    (per_page : Nat := 200) : RawPage :=
  httpGet server (title_only_request query per_page)

/-- The `search_type` selector of `get_all_results`. -/
inductive SearchType where
  | title_abstract : SearchType
  | general : SearchType
  | title_only : SearchType
deriving DecidableEq

/-- The request one iteration of the `get_all_results` loop issues for the
loop counter value `page` (matching the three `self.search_*` calls; in the
`title_only` arm the counter is not passed on). -/
def request_for (search_type : SearchType) (query : String) (page : Nat) : Request :=
  match search_type with
  | .title_abstract => title_abstract_request query 200 page "relevance_score:desc"
  | .general => general_request query 200 page
  | .title_only => title_only_request query 200

/-- The `while len(all_results) < max_results` loop of `get_all_results`,
with the accumulator `acc` and the page counter threaded explicitly; also
returns the list of requests issued.  The `fuel` argument makes the
recursion structural: every continuing iteration appends at least
`per_page = 200` parsed records, so a call with `fuel = max_results` can
never hit the `fuel = 0` cutoff while `acc.length < max_results` still holds
(see `get_all_results_loop_fuel_stable` below: along any run
`max_results ≤ acc.length + 200 * fuel` is invariant, hence at `fuel = 0`
the cutoff result `(acc, [])` coincides with the loop's own exit). -/
def get_all_results_loop (server : Request → HttpResult) (query : String)
    (now : String) (search_type : SearchType) (max_results : Nat)
    (fuel : Nat) (acc : List ParsedRecord) (page : Nat) :
    List ParsedRecord × List Request :=
  match fuel with
  | 0 => (acc, [])
  | fuel + 1 =>
    if acc.length < max_results then
      let req := request_for search_type query page
      let batch := httpGet server req
      if batch.error.isSome then (acc, [req])
      else if (batch.results.getD []).isEmpty then (acc, [req])
      else
        let parsed_batch := parse_results batch query now
        let acc := acc ++ parsed_batch
        if parsed_batch.length < 200 then (acc, [req])
        else
          let rest := get_all_results_loop server query now search_type
            max_results fuel acc (page + 1)
          (rest.1, req :: rest.2)
    else (acc, [])

/-- `OpenAlexSearcher.get_all_results`: paginate from page 1 with page size
200 and return the accumulator truncated to `max_results`, together with the
trace of issued requests. -/
def get_all_results (server : Request → HttpResult) (query : String)
    (now : String) (max_results : Nat := 2000)
    (search_type : SearchType := .title_abstract) :
    List ParsedRecord × List Request :=
  let r := get_all_results_loop server query now search_type max_results
    max_results [] 1
  (r.1.take max_results, r.2)

/-- A row of the CSV as pandas sees it, restricted to the two columns the
deduplication touches; a cell is `none` when it holds `NaN`/`None`. -/
structure CsvRecord where
  doi : Option String := none
  title : Option String := none
deriving DecidableEq

/-- pandas `Series.astype(str)` on one object-dtype cell: `NaN` prints as
`"nan"`. -/
def pd_astype_str : Option String → String
  | some s => s
  | none => "nan"

/-- The auxiliary `dedup_key` column:
`combined_df['doi'].fillna('NO_DOI_' + combined_df['title'].astype(str))`.
`fillna` replaces only null cells (`NaN`/`None`) — a present empty string is
kept as the key. -/
def dedup_key (r : CsvRecord) : String :=
  match r.doi with
  | some d => d
  | none => "NO_DOI_" ++ pd_astype_str r.title

/-- `DataFrame.drop_duplicates(subset=['dedup_key'], keep='last')`: a row is
kept exactly when no later row has the same key (row order is preserved). -/
def drop_duplicates_keep_last : List CsvRecord → List CsvRecord
  | [] => []
  | r :: rs =>
    if (rs.map dedup_key).contains (dedup_key r) then drop_duplicates_keep_last rs
    else r :: drop_duplicates_keep_last rs

/-- One cell of a `to_csv` / `read_csv` round trip: a written empty string
becomes an empty CSV field, which `read_csv` reads back as `NaN` (pandas'
default NA filtering); every other string survives.  (Other default NA
sentinels such as the literal `"NaN"` are not modelled: DOIs and titles are
URLs and text.) -/
def csv_round_trip_cell : Option String → Option String
  | some "" => none
  | v => v

/-- A persisted row as `read_csv` returns it. -/
def csv_round_trip (r : CsvRecord) : CsvRecord :=
  { doi := csv_round_trip_cell r.doi, title := csv_round_trip_cell r.title }

/-- `pd.read_csv(csv_filename)` restricted to the dedup columns: the file
content (`none` = no file, giving an empty frame via `FileNotFoundError`)
with the NA conversion applied per cell. -/
def read_csv_model (file : Option (List CsvRecord)) : List CsvRecord :=
  (file.getD []).map csv_round_trip

/-- The dedup-relevant columns of the row `pd.DataFrame(new_results)` builds
for one parsed record (`title` is always a present string there). -/
def to_csv_record (p : ParsedRecord) : CsvRecord :=
  { doi := p.doi, title := some p.title }

/-- The statistics dict returned by `save_to_csv`; `duplicates_removed` is
`none` in the early-return branch, which omits that key. -/
structure SaveStats where
  message : String := ""
  new_records : Nat := 0
  total_records : Nat := 0
  duplicates_removed : Option Nat := none
deriving DecidableEq

/-- A file-system access performed by `save_to_csv` on the CSV file. -/
inductive FileOp where
  | readFile : FileOp
  | writeFile : FileOp
deriving DecidableEq

/-- The consolidation part of `save_to_csv`, given the records fetched by
`get_all_results`: early return when nothing was fetched (before any file
access); otherwise read the existing CSV, concatenate (existing first, new
second), deduplicate keeping the last occurrence per `dedup_key`, and
rewrite the file.  Returns the statistics, the new file content and the
trace of file accesses. -/
def consolidate (file : Option (List CsvRecord)) (new_results : List CsvRecord) :
    SaveStats × Option (List CsvRecord) × List FileOp :=
  if new_results.isEmpty then
    ({ message := "No se encontraron resultados nuevos"
       new_records := 0
       total_records := 0
       duplicates_removed := none }, file, [])
  else
    let existing_df := read_csv_model file
    let combined_df := existing_df ++ new_results
    let initial_count := combined_df.length
    let deduped := drop_duplicates_keep_last combined_df
    let final_count := deduped.length
    ({ message := "Busqueda completada y guardada"
       new_records := new_results.length
       total_records := final_count
       duplicates_removed := some (initial_count - final_count) },
     some deduped, [.readFile, .writeFile])

/-- `OpenAlexSearcher.save_to_csv`: fetch via `get_all_results`, then
consolidate into the CSV file. -/
def save_to_csv (server : Request → HttpResult) (query : String) (now : String)
    (file : Option (List CsvRecord)) (max_results : Nat := 2000)
    (search_type : SearchType := .title_abstract) :
    SaveStats × Option (List CsvRecord) × List FileOp :=
  let new_results := (get_all_results server query now max_results search_type).1
  consolidate file (new_results.map to_csv_record)

/-- The dedup key as claim C1 words it: "the record's DOI when the DOI is
non-empty and otherwise the literal prefix 'NO_DOI_' concatenated with the
record's title". -/
def claim_dedup_key (r : CsvRecord) : String :=
  if r.doi.getD "" ≠ "" then r.doi.getD "" else "NO_DOI_" ++ (r.title.getD "")

/-- A server whose every page is a full page of 200 empty works. -/
def serverFullPages : Request → HttpResult := fun _ =>
  .success { results := some (List.replicate 200 ({} : RawWork)) }

/-- A server serving 200 works on page 1 and 50 works on page 2. -/
def serverTwoPages : Request → HttpResult := fun req =>
  .success
    { results :=
        some (List.replicate (if req.page = some 2 then 50 else 200) ({} : RawWork)) }

/-- A server always serving a short page of 150 works. -/
def serverShortPage : Request → HttpResult := fun _ =>
  .success { results := some (List.replicate 150 ({} : RawWork)) }

/-- A server on which every request times out. -/
def serverTimeout : Request → HttpResult := fun _ => .failure .timeout

/-- A raw page consisting of two works that lack a DOI (so `parse_results`
gives both the DOI `''`) and have the distinct titles `"x"` and `"y"`. -/
def pageNoDoi : RawPage :=
  { results := some [{ display_name := some "x" }, { display_name := some "y" }] }

/-- A raw work with five authorship entries. -/
def fiveAuthorWork : RawWork :=
  { authorships :=
      some
        [{ author := some { display_name := some "A1" } },
         { author := some { display_name := some "A2" } },
         { author := some { display_name := some "A3" } },
         { author := some { display_name := some "A4" } },
         { author := some { display_name := some "A5" } }] }

/-- An inverted index whose reconstructed abstract is 600 characters long. -/
def longIndex : List (String × List Int) :=
  [(⟨List.replicate 600 'a'⟩, [0])]

/-- The stopping conditions claim C5 names for the page fetched at a given
loop-counter value: the page has no results, or it parses to fewer than 200
records. -/
def stop_page (server : Request → HttpResult) (query now : String)
    (search_type : SearchType) (page : Nat) : Prop :=
  ((httpGet server (request_for search_type query page)).results.getD []).isEmpty
  ∨ (parse_results (httpGet server (request_for search_type query page)) query now).length < 200

lemma dropWhile_idem {α : Type} (p : α → Bool) (l : List α) :
    (l.dropWhile p).dropWhile p = l.dropWhile p := by
  induction l with
  | nil => rfl
  | cons a t ih =>
    by_cases h : p a
    · simp [List.dropWhile_cons, h, ih]
    · simp [List.dropWhile_cons, h]

lemma head?_dropWhile_false {α : Type} (p : α → Bool) (l : List α) :
    ∀ a, (l.dropWhile p).head? = some a → p a = false := by
  induction l with
  | nil => intro a ha; simp at ha
  | cons b t ih =>
    intro a ha
    by_cases h : p b
    · rw [List.dropWhile_cons, if_pos h] at ha
      exact ih a ha
    · rw [List.dropWhile_cons, if_neg h] at ha
      simp at ha
      rw [← ha]
      exact Bool.eq_false_iff.mpr h

lemma dropWhile_head_false {α : Type} (p : α → Bool) (l : List α)
    (h : ∀ a, l.head? = some a → p a = false) : l.dropWhile p = l := by
  cases l with
  | nil => rfl
  | cons a t =>
    have := h a rfl
    simp [List.dropWhile_cons, this]

lemma getLast?_dropWhile {α : Type} (p : α → Bool) (l : List α)
    (h : l.dropWhile p ≠ []) : (l.dropWhile p).getLast? = l.getLast? := by
  induction l with
  | nil => simp at h
  | cons a t ih =>
    by_cases hp : p a
    · rw [List.dropWhile_cons, if_pos hp] at h ⊢
      cases t with
      | nil => simp at h
      | cons b u =>
        rw [List.getLast?_cons_cons]
        exact ih h
    · rw [List.dropWhile_cons, if_neg hp]

lemma stripChars_idem (l : List Char) : stripChars (stripChars l) = stripChars l := by
  have hhead : ∀ a, ((l.dropWhile Char.isWhitespace).head? = some a) →
      Char.isWhitespace a = false := head?_dropWhile_false _ l
  by_cases hme : (l.dropWhile Char.isWhitespace).reverse.dropWhile Char.isWhitespace = []
  · show stripChars (((l.dropWhile Char.isWhitespace).reverse.dropWhile Char.isWhitespace).reverse)
      = ((l.dropWhile Char.isWhitespace).reverse.dropWhile Char.isWhitespace).reverse
    rw [hme]
    rfl
  · have h1 : (((l.dropWhile Char.isWhitespace).reverse.dropWhile Char.isWhitespace).reverse).dropWhile Char.isWhitespace
        = ((l.dropWhile Char.isWhitespace).reverse.dropWhile Char.isWhitespace).reverse := by
      apply dropWhile_head_false
      intro a ha
      rw [List.head?_reverse] at ha
      rw [getLast?_dropWhile _ _ hme, List.getLast?_reverse] at ha
      exact hhead a ha
    show ((((l.dropWhile Char.isWhitespace).reverse.dropWhile Char.isWhitespace).reverse.dropWhile Char.isWhitespace).reverse.dropWhile Char.isWhitespace).reverse
      = ((l.dropWhile Char.isWhitespace).reverse.dropWhile Char.isWhitespace).reverse
    rw [h1, List.reverse_reverse, dropWhile_idem]

lemma format_term_step_eq (acc : List (List Char)) (t : List Char)
    (hs : stripChars t = t) (hne : t ≠ []) :
    format_term_step acc t = acc ++ [claim_wrap_term t] := by
  have hempty : t.isEmpty = false := by
    cases t with
    | nil => exact absurd rfl hne
    | cons a u => rfl
  unfold format_term_step claim_wrap_term
  rw [hs]
  by_cases hq : isQuotedTerm t
  · simp [hq, hempty]
  · by_cases hsp : ' ' ∈ t
    · simp [Bool.eq_false_iff.mpr hq, hsp, hempty]
    · simp [Bool.eq_false_iff.mpr hq, hsp, hempty]

lemma foldl_format_term (ts : List (List Char))
    (h : ∀ t ∈ ts, stripChars t = t ∧ t ≠ []) :
    ∀ acc, ts.foldl format_term_step acc = acc ++ ts.map claim_wrap_term := by
  induction ts with
  | nil => intro acc; simp
  | cons t ts ih =>
    intro acc
    have ht := h t (List.mem_cons_self t ts)
    rw [List.foldl_cons, format_term_step_eq acc t ht.1 ht.2,
      ih (fun u hu => h u (List.mem_cons_of_mem t hu)) (acc ++ [claim_wrap_term t]),
      List.map_cons]
    simp

lemma mem_terms_strip (query : String) (t : List Char)
    (ht : t ∈ ((splitChars ',' query.data).map stripChars).filter (fun t => !t.isEmpty)) :
    stripChars t = t ∧ t ≠ [] := by
  rw [List.mem_filter] at ht
  obtain ⟨hmem, hne⟩ := ht
  obtain ⟨u, _, hu⟩ := List.mem_map.mp hmem
  refine ⟨?_, ?_⟩
  · rw [← hu]
    exact stripChars_idem u
  · intro hnil
    rw [hnil] at hne
    simp at hne

/-- C3 (amended): when the input contains a comma and its uppercasing
contains neither `"OR"` nor `"AND"` as a substring (the code tests substring
containment, not whole-token containment), `_format_query_for_openalex`
splits the input on commas, trims whitespace from each term, drops empty
terms, wraps each unquoted term containing a space in double quotes and joins
the terms with `" OR "`; every other input is returned unchanged. -/
theorem c3_claim (query : String) :
    (comma_condition query = true →
      _format_query_for_openalex query = claim_comma_join query)
    ∧ (comma_condition query = false →
      _format_query_for_openalex query = query) := by
  constructor
  · intro hc
    unfold _format_query_for_openalex claim_comma_join
    rw [if_pos hc]
    simp only [foldl_format_term _ (fun t ht => mem_terms_strip query t ht),
      List.nil_append]
  · intro hc
    simp [_format_query_for_openalex, hc]

/-- C3 (counterexample): `"corn, maize"` contains a comma and contains
neither `AND` nor `OR` as a whole case-insensitive token, so the claim says
it is rewritten to `"corn OR maize"`; the code tests `'OR' in query.upper()`
as a substring, which matches inside `CORN`, and returns the input
unchanged. -/
theorem c3_counterexample :
    ("corn, maize".data.contains ',') = true
    ∧ has_boolean_token "corn, maize" = false
    ∧ claim_comma_join "corn, maize" = "corn OR maize"
    ∧ _format_query_for_openalex "corn, maize" = "corn, maize"
    ∧ ("corn, maize" : String) ≠ "corn OR maize" := by
  decide

/-- C3 (witness): the three examples named by the claim, obtained through
`c3_claim`. -/
theorem c3_witness :
    (comma_condition "a, b, c" = true
      ∧ _format_query_for_openalex "a, b, c" = "a OR b OR c")
    ∧ (comma_condition "a b, c d" = true
      ∧ _format_query_for_openalex "a b, c d" = "\"a b\" OR \"c d\"")
    ∧ (comma_condition "a AND b, c" = false
      ∧ _format_query_for_openalex "a AND b, c" = "a AND b, c") := by
  refine ⟨⟨by decide, ?_⟩, ⟨by decide, ?_⟩, ⟨by decide, ?_⟩⟩
  · exact ((c3_claim "a, b, c").1 (by decide)).trans (by decide)
  · exact ((c3_claim "a b, c d").1 (by decide)).trans (by decide)
  · exact (c3_claim "a AND b, c").2 (by decide)

lemma mem_insertPair (x z : Int × String) (l : List (Int × String)) :
    z ∈ insertPair x l ↔ z = x ∨ z ∈ l := by
  induction l with
  | nil => simp [insertPair]
  | cons y ys ih =>
    by_cases h : x.1 ≤ y.1
    · simp [insertPair, h]
    · simp [insertPair, h, ih]
      tauto

lemma pairwise_insertPair (x : Int × String) (l : List (Int × String))
    (hl : l.Pairwise (fun a b => a.1 ≤ b.1)) :
    (insertPair x l).Pairwise (fun a b => a.1 ≤ b.1) := by
  induction l with
  | nil => simp [insertPair]
  | cons y ys ih =>
    rw [List.pairwise_cons] at hl
    by_cases h : x.1 ≤ y.1
    · rw [insertPair, if_pos h, List.pairwise_cons]
      refine ⟨?_, List.pairwise_cons.mpr hl⟩
      intro z hz
      rcases List.mem_cons.mp hz with hz | hz
      · rw [hz]
        exact h
      · exact le_trans h (hl.1 z hz)
    · rw [insertPair, if_neg h, List.pairwise_cons]
      refine ⟨?_, ih hl.2⟩
      intro z hz
      rcases (mem_insertPair x z ys).mp hz with hz | hz
      · rw [hz]
        omega
      · exact hl.1 z hz

lemma perm_insertPair (x : Int × String) (l : List (Int × String)) :
    List.Perm (insertPair x l) (x :: l) := by
  induction l with
  | nil => simp [insertPair]
  | cons y ys ih =>
    by_cases h : x.1 ≤ y.1
    · rw [insertPair, if_pos h]
    · rw [insertPair, if_neg h]
      exact (List.Perm.cons y ih).trans (List.Perm.swap x y ys)

lemma pairwise_sort_pairs (l : List (Int × String)) :
    (sort_pairs l).Pairwise (fun a b => a.1 ≤ b.1) := by
  induction l with
  | nil => simp [sort_pairs]
  | cons x xs ih => exact pairwise_insertPair x (sort_pairs xs) ih

lemma perm_sort_pairs (l : List (Int × String)) :
    List.Perm (sort_pairs l) l := by
  induction l with
  | nil => simp [sort_pairs]
  | cons x xs ih => exact (perm_insertPair x (sort_pairs xs)).trans (ih.cons x)

lemma filter_insertPair (x : Int × String) (l : List (Int × String)) (k : Int) :
    (insertPair x l).filter (fun p => p.1 = k)
      = if x.1 = k then x :: l.filter (fun p => p.1 = k)
        else l.filter (fun p => p.1 = k) := by
  induction l with
  | nil =>
    by_cases hx : x.1 = k
    · simp [insertPair, hx]
    · simp [insertPair, hx]
  | cons y ys ih =>
    by_cases h : x.1 ≤ y.1
    · rw [insertPair, if_pos h]
      by_cases hx : x.1 = k
      · simp [List.filter_cons, hx]
      · simp [List.filter_cons, hx]
    · rw [insertPair, if_neg h]
      by_cases hy : y.1 = k
      · by_cases hx : x.1 = k
        · exact absurd (le_of_eq (hx.trans hy.symm)) h
        · simp [List.filter_cons, hy, hx, ih]
      · by_cases hx : x.1 = k
        · simp [List.filter_cons, hy, hx, ih]
        · simp [List.filter_cons, hy, hx, ih]

lemma filter_sort_pairs (l : List (Int × String)) (k : Int) :
    (sort_pairs l).filter (fun p => p.1 = k) = l.filter (fun p => p.1 = k) := by
  induction l with
  | nil => rfl
  | cons x xs ih =>
    rw [sort_pairs, filter_insertPair]
    by_cases hx : x.1 = k
    · simp [List.filter_cons, hx, ih]
    · simp [List.filter_cons, hx, ih]

/-- C4 (confirmed): `_convert_inverted_abstract` flattens the mapping into one
(position, word) pair per listed position, stable-sorts ascending by position
(the sorted list is a permutation of the flattened list, is pairwise ordered
by position, and preserves the original relative order of pairs with equal
positions), joins the words in that order with single spaces, returns `""`
for the empty mapping, and truncates a joined string longer than 500
characters to its first 500 characters plus `"..."`; in particular
`{"hello": [1], "world": [0]}` gives `"world hello"`. -/
theorem c4_claim (idx : List (String × List Int)) :
    (sort_pairs (flatten_pairs idx)).Pairwise (fun a b => a.1 ≤ b.1)
    ∧ List.Perm (sort_pairs (flatten_pairs idx)) (flatten_pairs idx)
    ∧ (∀ k : Int, (sort_pairs (flatten_pairs idx)).filter (fun p => p.1 = k)
        = (flatten_pairs idx).filter (fun p => p.1 = k))
    ∧ (idx = [] → _convert_inverted_abstract idx = "")
    ∧ ((joined_abstract idx).length > 500 →
        _convert_inverted_abstract idx = ⟨(joined_abstract idx).take 500⟩ ++ "...")
    ∧ ((joined_abstract idx).length ≤ 500 →
        _convert_inverted_abstract idx = ⟨joined_abstract idx⟩)
    ∧ _convert_inverted_abstract [("hello", [1]), ("world", [0])] = "world hello" := by
  refine ⟨pairwise_sort_pairs _, perm_sort_pairs _,
    fun k => filter_sort_pairs _ k, ?_, ?_, ?_, by decide⟩
  · intro h
    rw [h]
    rfl
  · intro h
    cases idx with
    | nil => exact absurd h (by decide)
    | cons a l =>
      rw [_convert_inverted_abstract]
      rw [if_neg (by simp)]
      rw [if_pos h]
  · intro h
    cases idx with
    | nil => rfl
    | cons a l =>
      rw [_convert_inverted_abstract]
      rw [if_neg (by simp)]
      rw [if_neg (by omega)]

set_option maxRecDepth 8000 in
/-- C4 (witness): an index whose reconstructed abstract has 600 characters is
truncated to its first 500 characters plus `"..."`. -/
theorem c4_witness :
    (joined_abstract longIndex).length > 500
    ∧ _convert_inverted_abstract longIndex
        = ⟨(joined_abstract longIndex).take 500⟩ ++ "..." := by
  refine ⟨by decide, (c4_claim longIndex).2.2.2.2.1 (by decide)⟩

lemma authors_foldl_eq (l : List Authorship) :
    ∀ acc, List.foldl
      (fun acc auth =>
        let author_name := authorship_name auth
        if author_name ≠ "" then acc ++ [author_name] else acc) acc l
      = acc ++ (l.map authorship_name).filter (fun n => n ≠ "") := by
  induction l with
  | nil => intro acc; simp
  | cons a t ih =>
    intro acc
    rw [List.foldl_cons]
    by_cases h : authorship_name a = ""
    · simp only [h]
      rw [ih]
      simp [h]
    · simp only [List.map_cons, List.filter_cons]
      rw [ih]
      simp [h]

lemma work_authors_eq (work : RawWork) :
    work_authors work
      = (((work.authorships.getD []).take 3).map authorship_name).filter
          (fun n => n ≠ "") := by
  unfold work_authors
  rcases hws : work.authorships with _ | l
  · rfl
  · cases l with
    | nil => rfl
    | cons a t =>
      simp only [Option.getD_some]
      rw [authors_foldl_eq]
      simp

/-- C8 (confirmed): the `author` field of a parsed record is built from at
most the first 3 authorship entries, taking each author's display name,
dropping empty names, and joining the remaining names with `"; "`; in
particular a work with 5 authorships yields only the first 3 names. -/
theorem c8_claim :
    (∀ work query now, (parse_work work query now).author
      = String.intercalate "; "
          ((((work.authorships.getD []).take 3).map authorship_name).filter
            (fun n => n ≠ "")))
    ∧ (parse_work fiveAuthorWork "q" "now").author = "A1; A2; A3" := by
  constructor
  · intro work query now
    show (if !(work_authors work).isEmpty
        then String.intercalate "; " (work_authors work) else "") = _
    rw [work_authors_eq]
    cases hf : (((work.authorships.getD []).take 3).map authorship_name).filter
        (fun n => n ≠ "") with
    | nil => rfl
    | cons a t => rfl
  · decide

/-- C7 (confirmed): `parse_results` yields the empty list when the page
carries an error indicator or lacks a results field (the function is total,
so it never raises), and a work whose primary location is absent or `null`,
or whose nested source is absent or `null`, parses with an empty
`publication` field. -/
theorem c7_claim :
    (∀ page query now, page.error.isSome → parse_results page query now = [])
    ∧ (∀ page query now, page.results = none → parse_results page query now = [])
    ∧ (∀ work query now,
        work.primary_location = none ∨ work.primary_location = some none →
        (parse_work work query now).publication = "")
    ∧ (∀ work pl query now,
        work.primary_location = some (some pl) →
        pl.source = none ∨ pl.source = some none →
        (parse_work work query now).publication = "") := by
  refine ⟨?_, ?_, ?_, ?_⟩
  · intro page query now h
    simp [parse_results, h]
  · intro page query now h
    by_cases he : page.error.isSome
    · simp [parse_results, he]
    · simp [parse_results, he, h]
  · intro work query now h
    rcases h with h | h <;> simp [parse_work, h]
  · intro work pl query now hpl h
    rcases h with h | h <;> simp [parse_work, hpl, h]

/-- C7 (witness): concrete error page, concrete results-less page, and
concrete works with `null` primary location and `null` source. -/
theorem c7_witness :
    parse_results { error := some "Error en la solicitud: timed out" } "q" "now" = []
    ∧ parse_results { error := none, results := none } "q" "now" = []
    ∧ (parse_work { primary_location := some none } "q" "now").publication = ""
    ∧ (parse_work { primary_location := some (some { source := some none }) }
        "q" "now").publication = "" := by
  refine ⟨c7_claim.1 _ "q" "now" rfl, c7_claim.2.1 _ "q" "now" rfl,
    c7_claim.2.2.1 _ "q" "now" (Or.inr rfl),
    c7_claim.2.2.2 _ { source := some none } "q" "now" rfl (Or.inr rfl)⟩

theorem get_all_results_loop_fuel_stable (server : Request → HttpResult)
    (query now : String) (st : SearchType) (max_results : Nat) :
    ∀ fuel acc page, max_results ≤ acc.length + 200 * fuel →
      get_all_results_loop server query now st max_results (fuel + 1) acc page
        = get_all_results_loop server query now st max_results fuel acc page := by
  intro fuel
  induction fuel with
  | zero =>
    intro acc page h
    simp only [get_all_results_loop]
    rw [if_neg (by omega)]
  | succ f ih =>
    intro acc page h
    conv_lhs => rw [get_all_results_loop]
    conv_rhs => rw [get_all_results_loop]
    by_cases hlt : acc.length < max_results
    · rw [if_pos hlt, if_pos hlt]
      by_cases herr : (httpGet server (request_for st query page)).error.isSome
      · rw [if_pos herr, if_pos herr]
      · rw [if_neg herr, if_neg herr]
        by_cases hres : ((httpGet server (request_for st query page)).results.getD []).isEmpty
        · rw [if_pos hres, if_pos hres]
        · rw [if_neg hres, if_neg hres]
          by_cases hshort :
              (parse_results (httpGet server (request_for st query page)) query now).length < 200
          · rw [if_pos hshort, if_pos hshort]
          · rw [if_neg hshort, if_neg hshort]
            have hlen : max_results ≤
                (acc ++ parse_results (httpGet server (request_for st query page)) query now).length
                  + 200 * f := by
              rw [List.length_append]
              omega
            rw [ih _ (page + 1) hlen]
    · rw [if_neg hlt, if_neg hlt]

theorem get_all_results_loop_fuel_adequate (server : Request → HttpResult)
    (query now : String) (st : SearchType) (max_results extra : Nat) :
    get_all_results_loop server query now st max_results (max_results + extra) [] 1
      = get_all_results_loop server query now st max_results max_results [] 1 := by
  induction extra with
  | zero => rfl
  | succ e ih =>
    have h : max_results ≤ ([] : List ParsedRecord).length + 200 * (max_results + e) := by
      simp
      omega
    exact (get_all_results_loop_fuel_stable server query now st max_results
      (max_results + e) [] 1 h).trans ih

set_option maxRecDepth 40000 in
/-- C5 (confirmed): the retrieval loop never returns more than `max_results`
records, the final result is the accumulator truncated to `max_results`, the
loop stops fetching once the accumulator has reached `max_results` and
whenever a fetched page has no results or parses to fewer than 200 records;
in particular with `max_results = 250`, a 200-record page 1 and a 50-record
page 2 give exactly 2 fetches and 250 records, and a 150-record page 1 gives
exactly 1 fetch and 150 records. -/
theorem c5_claim (server : Request → HttpResult) (query now : String)
    (st : SearchType) (max_results : Nat) (h : 1 ≤ max_results) :
    ((get_all_results server query now max_results st).1.length ≤ max_results)
    ∧ ((get_all_results server query now max_results st).1
        = ((get_all_results_loop server query now st max_results max_results
            [] 1).1).take max_results)
    ∧ (∀ fuel acc page, max_results ≤ acc.length →
        get_all_results_loop server query now st max_results fuel acc page = (acc, []))
    ∧ (∀ fuel acc page, acc.length < max_results →
        stop_page server query now st page →
        (get_all_results_loop server query now st max_results (fuel + 1) acc page).2
          = [request_for st query page])
    ∧ (get_all_results serverTwoPages "q" "now" 250 .title_abstract).2.length = 2
    ∧ (get_all_results serverTwoPages "q" "now" 250 .title_abstract).1.length = 250
    ∧ (get_all_results serverShortPage "q" "now" 250 .title_abstract).2.length = 1
    ∧ (get_all_results serverShortPage "q" "now" 250 .title_abstract).1.length = 150 := by
  refine ⟨?_, rfl, ?_, ?_, by decide, by decide, by decide, by decide⟩
  · show ((get_all_results_loop server query now st max_results max_results
        [] 1).1.take max_results).length ≤ max_results
    rw [List.length_take]
    exact Nat.min_le_left _ _
  · intro fuel acc page hge
    cases fuel with
    | zero => rfl
    | succ f =>
      conv_lhs => rw [get_all_results_loop]
      rw [if_neg (Nat.not_lt.mpr hge)]
  · intro fuel acc page hlt hstop
    conv_lhs => rw [get_all_results_loop]
    rw [if_pos hlt]
    by_cases herr : (httpGet server (request_for st query page)).error.isSome
    · rw [if_pos herr]
    · rw [if_neg herr]
      by_cases hres : ((httpGet server (request_for st query page)).results.getD []).isEmpty
      · rw [if_pos hres]
      · rw [if_neg hres]
        rcases hstop with hstop | hstop
        · exact absurd hstop hres
        · rw [if_pos hstop]

set_option maxRecDepth 40000 in
/-- C5 (witness): the bound, the reached-`max_results` stop and the
short-page stop at concrete inputs, via `c5_claim`. -/
theorem c5_witness :
    (1 : Nat) ≤ 250
    ∧ (get_all_results serverTwoPages "q" "now" 250 .title_abstract).1.length ≤ 250
    ∧ get_all_results_loop serverTwoPages "q" "now" .title_abstract 250 3
        (List.replicate 250 ({} : ParsedRecord)) 9
        = (List.replicate 250 ({} : ParsedRecord), [])
    ∧ (get_all_results_loop serverShortPage "q" "now" .title_abstract 250 1 [] 1).2
        = [request_for .title_abstract "q" 1] := by
  have h1 := c5_claim serverTwoPages "q" "now" .title_abstract 250 (by decide)
  have h2 := c5_claim serverShortPage "q" "now" .title_abstract 250 (by decide)
  refine ⟨by decide, h1.1, h1.2.2.1 3 _ 9 (by simp), h2.2.2.2.1 0 [] 1 (by decide) ?_⟩
  exact Or.inr (by decide)

/-- C6 (confirmed): every transport-level failure (timeout, connection error,
non-2xx status) of a page fetch is converted by the fetchers' shared handler
into a page whose `error` field carries an indicator string (the fetchers are
total functions, so nothing propagates), and the moment a fetched page
carries an error indicator the retrieval loop stops and returns exactly the
records accumulated so far. -/
theorem c6_claim :
    (∀ server req kind, server req = .failure kind →
      httpGet server req =
        { error := some ("Error en la solicitud: " ++ failKindMessage kind)
          results := none
          meta_count := none })
    ∧ (∀ server query now st max_results fuel acc page,
        acc.length < max_results →
        (httpGet server (request_for st query page)).error.isSome →
        get_all_results_loop server query now st max_results (fuel + 1) acc page
          = (acc, [request_for st query page])) := by
  constructor
  · intro server req kind hk
    unfold httpGet
    rw [hk]
  · intro server query now st max_results fuel acc page hlt herr
    conv_lhs => rw [get_all_results_loop]
    rw [if_pos hlt, if_pos herr]

/-- C6 (witness): a timeout on the very first page is turned into an error
page and the loop returns the empty accumulator, via `c6_claim`. -/
theorem c6_witness :
    httpGet serverTimeout (request_for .title_abstract "q" 1)
      = { error := some ("Error en la solicitud: " ++ failKindMessage .timeout)
          results := none
          meta_count := none }
    ∧ get_all_results_loop serverTimeout "q" "now" .title_abstract 10 5 [] 1
        = ([], [request_for .title_abstract "q" 1]) :=
  ⟨c6_claim.1 serverTimeout _ .timeout rfl,
   c6_claim.2 serverTimeout "q" "now" .title_abstract 10 4 [] 1 (by decide) (by decide)⟩

/-- C10 (confirmed): when retrieval produces no records, `save_to_csv`
returns the no-results statistics with `new_records = 0` and
`total_records = 0`, performs no file access at all, and leaves the persisted
collection exactly unchanged. -/
theorem c10_claim (server : Request → HttpResult) (query now : String)
    (max_results : Nat) (st : SearchType) (file : Option (List CsvRecord))
    (h : (get_all_results server query now max_results st).1 = []) :
    save_to_csv server query now file max_results st
      = ({ message := "No se encontraron resultados nuevos"
           new_records := 0
           total_records := 0
           duplicates_removed := none }, file, []) := by
  simp [save_to_csv, consolidate, h]

/-- C10 (witness): a server that times out yields no records, and
`save_to_csv` leaves a concrete one-record file untouched, via
`c10_claim`. -/
theorem c10_witness :
    (get_all_results serverTimeout "q" "now" 100 .general).1 = []
    ∧ save_to_csv serverTimeout "q" "now"
        (some [{ doi := some "d", title := some "t" }]) 100 .general
      = ({ message := "No se encontraron resultados nuevos"
           new_records := 0
           total_records := 0
           duplicates_removed := none },
         some [{ doi := some "d", title := some "t" }], []) :=
  ⟨by decide, c10_claim serverTimeout "q" "now" 100 .general _ (by decide)⟩

set_option maxRecDepth 4000 in
/-- C1 (code bug): two works lacking a DOI both parse with `doi = ''`; the
claim keys them `NO_DOI_x` and `NO_DOI_y` (distinct, so both kept), but
`fillna` only replaces null cells, never a present empty string, so the code
gives both rows the dedup key `''` and keeps only the later row:
`total_records = 1` and `duplicates_removed = 1` instead of the claimed
2 and 0. -/
theorem c1_code_bug_eval :
    ((parse_results pageNoDoi "q" "now").map (fun p => p.doi) = [some "", some ""])
    ∧ (((parse_results pageNoDoi "q" "now").map to_csv_record).map claim_dedup_key
        = ["NO_DOI_x", "NO_DOI_y"])
    ∧ (((parse_results pageNoDoi "q" "now").map to_csv_record).map dedup_key
        = ["", ""])
    ∧ (consolidate none
        ((parse_results pageNoDoi "q" "now").map to_csv_record)).1.total_records = 1
    ∧ (consolidate none
        ((parse_results pageNoDoi "q" "now").map to_csv_record)).1.duplicates_removed
        = some 1
    ∧ (consolidate none
        ((parse_results pageNoDoi "q" "now").map to_csv_record)).2.1
        = some [{ doi := some "", title := some "y" }] := by
  decide

set_option maxRecDepth 4000 in
/-- C9 (code bug): consolidating the same two no-DOI records twice is not
idempotent in the final count: the first run collapses both onto the dedup
key `''` (count 1), the rewritten CSV turns the empty DOI cell into `NaN` on
re-reading, so the second run keys the persisted row `NO_DOI_y` while the
incoming rows are again keyed `''`, giving count 2. -/
theorem c9_code_bug_eval :
    (consolidate none
      ((parse_results pageNoDoi "q" "now").map to_csv_record)).1.total_records = 1
    ∧ (consolidate
        (consolidate none ((parse_results pageNoDoi "q" "now").map to_csv_record)).2.1
        ((parse_results pageNoDoi "q" "now").map to_csv_record)).1.total_records = 2 := by
  decide

set_option maxRecDepth 40000 in
/-- C2 (code bug): in `title_only` mode the loop's page counter is never
passed to the fetcher (`search_title_only` takes no page argument), so when
page 1 is full the second iteration issues a request identical to the first,
with no `page` parameter at all — the same page is requested twice instead of
pages 1 and 2. -/
theorem c2_code_bug_eval :
    (get_all_results serverFullPages "q" "now" 250 .title_only).2
      = [title_only_request "q" 200, title_only_request "q" 200]
    ∧ (title_only_request "q" 200).page = none
    ∧ (get_all_results serverFullPages "q" "now" 250 .title_only).1.length = 250 := by
  decide
